import Mathlib

/-!
Verification of the Redfin property scraper (`src/main.js`) against its
natural-language specification.  JavaScript values relevant to the scraper are
shallowly embedded as `JVal` (null / undefined / number / string), JS numbers
as `JNum` (NaN or an idealized exact rational), and the record-building,
normalization, fetch-classification and orchestration logic of `main.js` is
translated into executable Lean definitions below.
-/

/-- Idealized JS number: `NaN` or an exact rational (finite doubles are
modelled exactly; float rounding is idealized away). -/
inductive JNum where
  | nan : JNum
  | rat : ℚ → JNum
deriving DecidableEq

/-- JS value as used by the scraper: `null`, `undefined`, numbers, strings. -/
inductive JVal where
  | null : JVal
  | undef : JVal
  | num : JNum → JVal
  | str : String → JVal
deriving DecidableEq

/-- JS truthiness: `null`, `undefined`, `NaN`, `0` and `""` are falsy. -/
def truthy : JVal → Bool
  | JVal.null => false
  | JVal.undef => false
  | JVal.num JNum.nan => false
  | JVal.num (JNum.rat q) => decide (q ≠ 0)
  | JVal.str s => decide (s ≠ "")

/-- JS `a || b`: the left operand if truthy, else the right operand. -/
def jsOr (a b : JVal) : JVal := if truthy a then a else b

theorem jsOr_pos (a b : JVal) (h : truthy a = true) : jsOr a b = a := by
  simp [jsOr, h]

theorem jsOr_neg (a b : JVal) (h : truthy a = false) : jsOr a b = b := by
  simp [jsOr, h]

theorem truthy_ne_null {v : JVal} (h : truthy v = true) : v ≠ JVal.null := by
  intro he; subst he; simp [truthy] at h

/-- Boolean prefix test on character lists (JS `String.prototype.startsWith`
at character level). -/
def charsBeginWith : List Char → List Char → Bool
  | [], _ => true
  | _ :: _, [] => false
  | a :: as, b :: bs => a == b && charsBeginWith as bs

/-- `strStartsWith s p` models the JS call `s.startsWith(p)`. -/
def strStartsWith (s p : String) : Bool := charsBeginWith p.toList s.toList

/-- Substring test on character lists (pattern, text). -/
def listContains (pat : List Char) : List Char → Bool
  | [] => pat.isEmpty
  | b :: bs => charsBeginWith pat (b :: bs) || listContains pat bs

/-- Lower-case a string character-wise (models JS `toLowerCase` on ASCII). -/
def lowerStr (s : String) : String := String.mk (s.toList.map Char.toLower)

/-- Case-insensitive substring test: models a `/pat/i` regex substring match
(`pat` is given in lower case). -/
def containsCI (body pat : String) : Bool :=
  listContains pat.toList (lowerStr body).toList

/-- The site base URL (`REDFIN_BASE` in `main.js`). -/
def redfinBase : String := "https://www.redfin.com"

/-- `ensureAbsoluteUrl` from `main.js`.  A falsy argument yields `null`; a
string is made absolute; a truthy non-string makes the JS code throw a
`TypeError` (`url.startsWith` is not a function), modelled as `none`. -/
def ensureAbsoluteUrl (url : JVal) : Option JVal :=
  if truthy url = false then some JVal.null
  else
    match url with
    | JVal.str s =>
        some (JVal.str (if strStartsWith s "http" then s
          else redfinBase ++ (if strStartsWith s "/" then "" else "/") ++ s))
    | _ => none

/-- Keep only ASCII digits and the decimal point: models the JS
`String(value).replace(/[^\d.]/g, '')` step of `normalizeNumber`. -/
def stripNonNumeric (s : String) : String :=
  String.mk (s.toList.filter (fun c => c.isDigit || c == '.'))

/-- Fold a digit list into a natural number. -/
def digitsToNat (cs : List Char) : Nat :=
  cs.foldl (fun a c => 10 * a + (c.toNat - 48)) 0

/-- JS `Number(s)` on a non-empty string of digits and dots: more than one
dot, or no digit at all, gives `NaN`; otherwise the finite decimal value
`ipart.fpart` (built with `mkRat` so the kernel can evaluate it). -/
def jsNumberOfNumeric (s : String) : JNum :=
  let cs := s.toList
  let dots := cs.countP (fun c => c == '.')
  let digits := cs.filter Char.isDigit
  if 1 < dots ∨ digits = [] then JNum.nan
  else
    let ipart := cs.takeWhile (fun c => !(c == '.'))
    let fpart := (cs.dropWhile (fun c => !(c == '.'))).drop 1
    JNum.rat (mkRat (digitsToNat ipart * 10 ^ fpart.length + digitsToNat fpart) (10 ^ fpart.length))

/-- `normalizeNumber` from `buildProperty` in `main.js`: null/undefined map to
null, numbers pass through, strings are stripped to digits/dot and converted
with `Number`, with the empty residue mapping to null. -/
def normalizeNumber : JVal → JVal
  | JVal.null => JVal.null
  | JVal.undef => JVal.null
  | JVal.num n => JVal.num n
  | JVal.str s =>
      let numeric := stripNonNumeric s
      if numeric = "" then JVal.null else JVal.num (jsNumberOfNumeric numeric)

/-- Insert `en-US` thousands separators into a reversed digit stream: a comma
is emitted before every digit whose (0-based) position from the right is a
positive multiple of three. -/
def grpGo : List Char → Nat → List Char
  | [], _ => []
  | c :: rest, n => (if n ≠ 0 ∧ n % 3 = 0 then [',', c] else [c]) ++ grpGo rest (n + 1)

/-- Group a natural number's decimal digits with commas (`450000 ↦ "450,000"`). -/
def groupThousands (n : Nat) : String :=
  String.mk ((grpGo (Nat.repr n).toList.reverse 0).reverse)

/-- Pad a number below 1000 to exactly three decimal digits. -/
def pad3 (n : Nat) : String :=
  if n < 10 then "00" ++ Nat.repr n
  else if n < 100 then "0" ++ Nat.repr n
  else Nat.repr n

/-- Drop trailing `'0'` characters (minimum fraction digits is zero). -/
def stripTrailingZeros (s : String) : String :=
  String.mk ((s.toList.reverse.dropWhile (fun c => c == '0')).reverse)

/-- `en-US` locale rendering of the nonnegative rational `n / d`: grouped
integer part plus at most three fraction digits, rounded half-expand — the
default `Intl` rounding used by `toLocaleString`.  `(2000 * n + d) / (2 * d)`
is `⌊(n / d) * 1000 + 1 / 2⌋` computed in ℕ. -/
def locNumDen (n d : Nat) : String :=
  let scaled := (2000 * n + d) / (2 * d)
  let ip := scaled / 1000
  let fr := scaled % 1000
  let ipStr := groupThousands ip
  if fr = 0 then ipStr else ipStr ++ "." ++ stripTrailingZeros (pad3 fr)

/-- Models JS `Number.prototype.toLocaleString()` under the `en-US` locale:
`NaN` renders as `"NaN"`, finite values get thousands separators and at most
three fraction digits. -/
def jsToLocaleString : JNum → String
  | JNum.nan => "NaN"
  | JNum.rat q =>
      if q.num < 0 then "-" ++ locNumDen (-q.num).toNat q.den
      else locNumDen q.num.toNat q.den

/-- Fraction digits of `r / d` by long division, with fuel (idealizes the
finite precision of JS float printing; claims only exercise the exact cases). -/
def fracDigits : Nat → Nat → Nat → List Char
  | 0, _, _ => []
  | _ + 1, 0, _ => []
  | fuel + 1, r, d =>
      let r10 := r * 10
      Char.ofNat (48 + r10 / d) :: fracDigits fuel (r10 % d) d

/-- Models JS `String(n)` / template-literal coercion for numbers. -/
def jsNumToString : JNum → String
  | JNum.nan => "NaN"
  | JNum.rat q =>
      let sign := if q.num < 0 then "-" else ""
      let n := q.num.natAbs
      let d := q.den
      if n % d = 0 then sign ++ Nat.repr (n / d)
      else sign ++ Nat.repr (n / d) ++ "." ++ String.mk (fracDigits 20 (n % d) d)

/-- Models JS string coercion `String(v)` / `${v}` of the embedded values. -/
def jsToString : JVal → String
  | JVal.null => "null"
  | JVal.undef => "undefined"
  | JVal.num n => jsNumToString n
  | JVal.str s => s

/-- The `formattedPrice` ternary chain of `buildProperty`: a number is locale
formatted with a `$` sign; a string already starting with `$` passes through;
any other truthy string is normalized and re-formatted (falling back to the
raw string when normalization returns null); falsy values give null. -/
def formatPrice (priceVal : JVal) : JVal :=
  match priceVal with
  | JVal.num n => JVal.str ("$" ++ jsToLocaleString n)
  | JVal.str s =>
      if strStartsWith s "$" then JVal.str s
      else if s ≠ "" then
        JVal.str ("$" ++ (match normalizeNumber (JVal.str s) with
          | JVal.num n => jsToLocaleString n
          | _ => s))
      else JVal.null
  | _ => JVal.null

/-- Partial input record for `buildProperty` (a Listing Summary or a Detail
Record); a missing JS object property is `undefined`. -/
structure PRec where
  propertyId : JVal := JVal.undef
  id : JVal := JVal.undef
  url : JVal := JVal.undef
  address : JVal := JVal.undef
  city : JVal := JVal.undef
  state : JVal := JVal.undef
  zip : JVal := JVal.undef
  price : JVal := JVal.undef
  beds : JVal := JVal.undef
  baths : JVal := JVal.undef
  sqft : JVal := JVal.undef
  lotSize : JVal := JVal.undef
  propertyType : JVal := JVal.undef
  status : JVal := JVal.undef
  listingDate : JVal := JVal.undef
  latitude : JVal := JVal.undef
  longitude : JVal := JVal.undef
  mlsNumber : JVal := JVal.undef
  yearBuilt : JVal := JVal.undef
  hoa : JVal := JVal.undef
  description : JVal := JVal.undef
deriving DecidableEq

/-- An input record with every property absent (`{}` in JS). -/
def emptyRec : PRec := {}

/-- The Canonical Property Record emitted by `buildProperty`. -/
structure PropRecord where
  propertyId : JVal
  url : JVal
  address : JVal
  streetAddress : JVal
  city : JVal
  state : JVal
  zip : JVal
  price : JVal
  beds : JVal
  baths : JVal
  sqft : JVal
  propertyType : JVal
  status : JVal
  listingDate : JVal
  description : JVal
  latitude : JVal
  longitude : JVal
  mlsNumber : JVal
  lotSize : JVal
  yearBuilt : JVal
  hoa : JVal
  source : String
  fetched_at : String
deriving DecidableEq

/-- The native identifier selection of `buildProperty`:
`listing.propertyId || detail.id || listing.mlsNumber`. -/
def natIdOf (l d : PRec) : JVal := jsOr (jsOr l.propertyId d.id) l.mlsNumber

/-- `buildProperty` from `main.js`, field for field.  The result is `none`
exactly when the JS function would throw (a truthy non-string URL).
`now` stands in for `new Date().toISOString()`. -/
def buildProperty (listing detail : PRec) (source now : String) : Option PropRecord :=
  let propertyId := natIdOf listing detail
  match ensureAbsoluteUrl (jsOr listing.url detail.url) with
  | none => none
  | some u0 =>
    let url := jsOr u0 (if truthy propertyId then
        JVal.str (redfinBase ++ "/home/" ++ jsToString propertyId) else JVal.null)
    let address := jsOr detail.address listing.address
    let city := jsOr detail.city listing.city
    let state := jsOr detail.state listing.state
    let zip := jsOr detail.zip listing.zip
    let fullAddress := if truthy address && truthy city && truthy state then
        JVal.str (jsToString address ++ ", " ++ jsToString city ++ ", " ++ jsToString state
          ++ (if truthy zip then " " ++ jsToString zip else ""))
      else jsOr address JVal.null
    some {
      propertyId := jsOr propertyId url
      url := url
      address := fullAddress
      streetAddress := address
      city := city
      state := state
      zip := zip
      price := formatPrice (jsOr detail.price listing.price)
      beds := normalizeNumber (jsOr detail.beds listing.beds)
      baths := normalizeNumber (jsOr detail.baths listing.baths)
      sqft := normalizeNumber (jsOr detail.sqft listing.sqft)
      propertyType := jsOr (jsOr listing.propertyType detail.propertyType) JVal.null
      status := jsOr (jsOr detail.status listing.status) JVal.null
      listingDate := jsOr (jsOr detail.listingDate listing.listingDate) JVal.null
      description := jsOr detail.description JVal.null
      latitude := jsOr (jsOr detail.latitude listing.latitude) JVal.null
      longitude := jsOr (jsOr detail.longitude listing.longitude) JVal.null
      mlsNumber := jsOr (jsOr detail.mlsNumber listing.mlsNumber) JVal.null
      lotSize := jsOr (jsOr detail.lotSize listing.lotSize) JVal.null
      yearBuilt := jsOr (jsOr detail.yearBuilt listing.yearBuilt) JVal.null
      hoa := jsOr (jsOr detail.hoa listing.hoa) JVal.null
      source := source
      fetched_at := now }

deriving instance DecidableEq for Except

/-- The block-indicating HTTP status codes (`BLOCK_STATUS` in `main.js`). -/
def blockStatus : List Nat := [403, 429, 503]

/-- The block-indicator body phrases (`DETAIL_BLOCK_PATTERNS`, each tested as
a case-insensitive substring match). -/
def detailBlockPatterns : List String := ["captcha", "unusual traffic", "access denied"]

/-- Body scan of `fetchSearchHtml`: does any block pattern occur? -/
def htmlBlocked (body : String) : Bool :=
  detailBlockPatterns.any (fun p => containsCI body p)

/-- Pure per-response classification of `fetchSearchHtml` in `main.js`:
block statuses and non-200 statuses throw, a 200 body containing a block
phrase throws, otherwise the body is returned. -/
def fetchSearchHtmlStep (status : Nat) (body : String) : Except String String :=
  if status ∈ blockStatus then Except.error ("Blocked (" ++ Nat.repr status ++ ")")
  else if status ≠ 200 then Except.error ("Unexpected status " ++ Nat.repr status)
  else if htmlBlocked body then Except.error "HTML response indicates blocking"
  else Except.ok body

/-- `REGION_TYPE_MAP` from `main.js`. -/
def regionTypeMap (k : String) : Option Nat :=
  if k = "city" then some 6
  else if k = "zipcode" then some 5
  else if k = "neighborhood" then some 4
  else if k = "county" then some 2
  else if k = "state" then some 1
  else none

/-- The alternatives of the region regex, in alternation order. -/
def regionKeywords : List String := ["city", "zipcode", "neighborhood", "county", "state"]

/-- Lower-case a character list. -/
def lowerChars (cs : List Char) : List Char := cs.map Char.toLower

/-- Does a character list start with `'/'`? -/
def startsWithSlash : List Char → Bool
  | '/' :: _ => true
  | _ => false

/-- Try to match `keyword + "/" + digits + "/"` (keyword case-insensitive) at
the start of `cs`, returning the matched keyword and digit group. -/
def matchKeywordAt (cs : List Char) (k : String) : Option (String × String) :=
  let kl := k.toList
  if lowerChars (cs.take kl.length) = kl then
    match cs.drop kl.length with
    | '/' :: rest =>
        let ds := rest.takeWhile Char.isDigit
        if ds.isEmpty = false ∧ startsWithSlash (rest.drop ds.length) = true then
          some (k, String.mk ds)
        else none
    | _ => none
  else none

/-- Try to match the region regex
`/\/(city|zipcode|neighborhood|county|state)\/(\d+)\//i` at the head of `cs`. -/
def matchRegionAt (cs : List Char) : Option (String × String) :=
  match cs with
  | '/' :: rest => regionKeywords.findSome? (fun k => matchKeywordAt rest k)
  | _ => none

/-- Leftmost match of the region regex in a character list. -/
def findRegionMatch : List Char → Option (String × String)
  | [] => none
  | c :: rest =>
      match matchRegionAt (c :: rest) with
      | some r => some r
      | none => findRegionMatch rest

/-- Split a URL at its first `"://"`, returning (scheme part, remainder). -/
def splitOnSchemeSep : List Char → Option (List Char × List Char)
  | [] => none
  | c :: rest =>
      if c == ':' && charsBeginWith ['/', '/'] rest then some ([], rest.drop 2)
      else
        match splitOnSchemeSep rest with
        | some (a, b) => some (c :: a, b)
        | none => none

/-- Pathname of a URL (models `new URL(url).pathname`; `none` models the
constructor throwing on a malformed URL). -/
def pathnameOf (url : String) : Option String :=
  match splitOnSchemeSep url.toList with
  | none => none
  | some (scheme, tail) =>
      if scheme = [] ∨ tail = [] then none
      else
        let afterHost := tail.dropWhile (fun c => !(c == '/'))
        let path := afterHost.takeWhile (fun c => !(c == '?' || c == '#'))
        some (String.mk (if path = [] then ['/'] else path))

/-- Split a character list on a separator character. -/
def splitChar (sep : Char) : List Char → List (List Char)
  | [] => [[]]
  | c :: rest =>
      if c == sep then [] :: splitChar sep rest
      else
        match splitChar sep rest with
        | [] => [[c]]
        | g :: gs => (c :: g) :: gs

/-- Last nonempty `/`-separated segment of a path
(`pathname.split('/').filter(Boolean).pop() || ''`). -/
def lastSegment (path : String) : String :=
  match (((splitChar '/' path.toList).map String.mk).filter (fun s => !(s == ""))).getLast? with
  | some s => s
  | none => ""

/-- ASCII alphanumeric test (the `[^a-z0-9]/i` character class complement). -/
def isAlnum (c : Char) : Bool := c.isAlpha || c.isDigit

/-- Replace each maximal run of non-alphanumeric characters by a single dash
(the `replace(/[^a-z0-9]+/gi, '-')` step); `prevNon` tracks a pending run. -/
def dashRunsGo (prevNon : Bool) : List Char → List Char
  | [] => []
  | c :: rest =>
      if isAlnum c then c :: dashRunsGo false rest
      else if prevNon then dashRunsGo true rest
      else '-' :: dashRunsGo true rest

/-- The market slug derivation of `deriveRegionMeta`. -/
def marketOf (slug : String) : String :=
  let lowered := lowerStr (String.mk (dashRunsGo false slug.toList))
  if lowered = "" then "market" else lowered

/-- Embed an optional numeric map result as a JS value (`undefined` when the
key is missing). -/
def jvalOfOptionNat : Option Nat → JVal
  | some n => JVal.num (JNum.rat n)
  | none => JVal.undef

/-- Region metadata derived for one scrape target. -/
structure RegionMeta where
  url : String
  regionId : JVal
  regionType : JVal
  market : String
deriving DecidableEq

/-- `deriveRegionMeta` from `main.js`: parse the URL, find the region regex
match in its pathname, and apply the explicit-override `||` chains.  The
`url` field stands for `urlObj.toString()` (serialization idealized as the
input string). -/
def deriveRegionMeta (url : String) (explicitRegionId explicitRegionType : JVal) :
    Option RegionMeta :=
  if url = "" then none
  else
    match pathnameOf url with
    | none => none
    | some path =>
        let m := findRegionMatch path.toList
        let regionId := jsOr explicitRegionId
          (match m with
           | some (_, ds) => JVal.str ds
           | none => JVal.null)
        let regionType := jsOr explicitRegionType
          (match m with
           | some (k, _) => jvalOfOptionNat (regionTypeMap k)
           | none => JVal.num (JNum.rat 6))
        some { url := url, regionId := regionId, regionType := regionType,
               market := marketOf (lastSegment path) }

/-- A listing as seen by the orchestrator's dedup logic: the two fields that
feed `listing.propertyId || listing.url`. -/
structure OrchListing where
  propertyId : JVal
  url : JVal
deriving DecidableEq

/-- The `homes` member of an API payload (`none` = property absent). -/
structure ApiInner where
  homes : Option (List OrchListing)
deriving DecidableEq

/-- A parsed API response body (`payload` member optional). -/
structure ApiParsed where
  payload : Option ApiInner
deriving DecidableEq

/-- Does a parsed response lack the `payload.homes` array? -/
def lacksHomes (parsed : Option ApiParsed) : Bool :=
  match parsed with
  | some ⟨some ⟨some _⟩⟩ => false
  | _ => true

/-- Per-attempt classification of `fetchJsonApiPage` in `main.js`, after JSON
parsing: block statuses throw `Blocked (code)`, other non-200 statuses throw
`Unexpected status code`, a parse lacking `payload.homes` throws
`Missing homes payload`, else the homes array is returned.  The error value
is the first number occurring in the thrown message (`none` when the message
has none), which is what the orchestrator's catch block extracts. -/
def classifyApiResponse (status : Nat) (parsed : Option ApiParsed) :
    Except (Option Nat) (List OrchListing) :=
  if status ∈ blockStatus then Except.error (some status)
  else if status ≠ 200 then Except.error (some status)
  else
    match parsed with
    | some ⟨some ⟨some homes⟩⟩ => Except.ok homes
    | _ => Except.error none

/-- Attempt loop of `requestWithRetry`: `fuel` is the number of retries still
allowed, `attempt` the number of attempts already made.  Returns the final
result together with the total number of attempts performed. -/
def retryGo {E A : Type} (fn : Nat → Except E A) : Nat → Nat → Except E A × Nat
  | attempt, 0 => (fn (attempt + 1), attempt + 1)
  | attempt, fuel + 1 =>
      match fn (attempt + 1) with
      | Except.ok a => (Except.ok a, attempt + 1)
      | Except.error _ => retryGo fn (attempt + 1) fuel

/-- `requestWithRetry` from `main.js` (backoff delays are time-free in the
model): run `fn` up to `maxRetries + 1` times, returning the first success or
the last error, together with the attempt count. -/
def retryRun {E A : Type} (fn : Nat → Except E A) (maxRetries : Nat) : Except E A × Nat :=
  retryGo fn 0 maxRetries

theorem retryRun_ok {E A : Type} (fn : Nat → Except E A) (mr : Nat) (a : A)
    (h : ∀ k, fn k = Except.ok a) : retryRun fn mr = (Except.ok a, 1) := by
  cases mr <;> simp [retryRun, retryGo, h]

theorem retryGo_error {E A : Type} (fn : Nat → Except E A) (e : E)
    (h : ∀ k, fn k = Except.error e) :
    ∀ fuel attempt, retryGo fn attempt fuel = (Except.error e, attempt + fuel + 1) := by
  intro fuel
  induction fuel with
  | zero => intro attempt; simp [retryGo, h]
  | succ k ih =>
      intro attempt
      simp only [retryGo, h, ih (attempt + 1)]
      have harith : attempt + 1 + k + 1 = attempt + (k + 1) + 1 := by omega
      rw [harith]

theorem retryRun_error {E A : Type} (fn : Nat → Except E A) (e : E) (mr : Nat)
    (h : ∀ k, fn k = Except.error e) : retryRun fn mr = (Except.error e, mr + 1) := by
  simpa [retryRun, Nat.add_comm] using retryGo_error fn e h mr 0

/-- Count the `true` entries of a boolean list. -/
def countTrue (l : List Bool) : Nat := l.countP (fun b => b)

/-- Mutable run state of the orchestrator in `main.js` (`seen`, `saved`,
`stats`), plus the observable request log used by the theorems:
`apiRequests` records the page number of each `fetchJsonApiPage` call,
`apiAttempts` the total network attempts including retries, `htmlRequests`
the page numbers of `fetchSearchHtml` list-page calls, `pushed` the dedup
identifier of every record pushed to the sink. -/
structure OrchState where
  saved : Nat
  seen : List JVal
  pushed : List JVal
  apiRequests : List Nat
  apiAttempts : Nat
  htmlRequests : List Nat
  methods : List String
  errors : Nat
deriving DecidableEq

/-- `stats.methodsUsed.add` (a JS `Set`, insertion ordered). -/
def addMethod (m : String) (l : List String) : List String :=
  if m ∈ l then l else l ++ [m]

/-- One page's detail-fetch task batch under `createLimiter(conc)`.

Each listing task first checks `saved >= resultsWanted`, then performs the
atomic dedup check-and-claim (`seen.has` / `seen.add`, both before any
`await`), and finally — after its detail fetch — pushes one record and
increments `saved`.  Because every pushing task suspends at least once before
its increment, and the limiter admits a queued task exactly when an earlier
task completes, the task admitted after `k` completions observes `saved0`
plus the pushes among the first `k` tasks.  `flags` records, in admission
order, which already-admitted tasks push; the task being admitted has index
`flags.length` and sees the completed prefix `flags.take (length + 1 - conc)`
(detail fetches may complete out of order, but any completion order yields
the same counts since every completed task before quota failure has pushed).
Returns (push flags, final seen set, pushed identifiers in claim order). -/
def pageGo (wanted conc saved0 : Nat) :
    List JVal → List Bool → List JVal → List JVal → List Bool × List JVal × List JVal
  | [], flags, seen, pushed => (flags, seen, pushed)
  | id :: rest, flags, seen, pushed =>
      if wanted ≤ saved0 + countTrue (flags.take (flags.length + 1 - conc)) then
        pageGo wanted conc saved0 rest (flags ++ [false]) seen pushed
      else if truthy id = true ∧ id ∈ seen then
        pageGo wanted conc saved0 rest (flags ++ [false]) seen pushed
      else
        pageGo wanted conc saved0 rest (flags ++ [true])
          (if truthy id = true then seen ++ [id] else seen) (pushed ++ [id])

/-- Run one page's task batch and return (new saved count, seen, pushed). -/
def runPageTasks (wanted conc : Nat) (ids : List JVal) (saved : Nat)
    (seen pushed : List JVal) : Nat × List JVal × List JVal :=
  let r := pageGo wanted conc saved ids [] seen pushed
  (saved + countTrue r.1, r.2.1, r.2.2)

/-- Dedup identifier of a listing: `listing.propertyId || listing.url`. -/
def listingIds (homes : List OrchListing) : List JVal :=
  homes.map (fun h => jsOr h.propertyId h.url)

/-- The `preferJson` page loop of the orchestrator (`main.js` lines 644-697):
pages are fetched sequentially through `requestWithRetry`; a thrown error
increments the error counter and — only when the first number in its message
is a block status — breaks the loop, otherwise the loop proceeds to the next
page; an empty homes array breaks the loop; otherwise the page's listings are
dispatched through the limiter and the loop breaks once the quota is met.
`fuel` is the number of page iterations left (`maxPages - page + 1`). -/
def apiLoopGo (wanted conc maxRetries : Nat)
    (pages : Nat → Except (Option Nat) (List OrchListing)) :
    Nat → Nat → OrchState → OrchState
  | _, 0, st => st
  | page, fuel + 1, st =>
      if wanted ≤ st.saved then st
      else
        match retryRun (fun _ => pages page) maxRetries with
        | (Except.error e, att) =>
            let st2 : OrchState := { st with
              apiRequests := st.apiRequests ++ [page],
              apiAttempts := st.apiAttempts + att,
              errors := st.errors + 1 }
            (match e with
             | some n =>
                 if n ∈ blockStatus then st2
                 else apiLoopGo wanted conc maxRetries pages (page + 1) fuel st2
             | none => apiLoopGo wanted conc maxRetries pages (page + 1) fuel st2)
        | (Except.ok homes, att) =>
            let st2 : OrchState := { st with
              apiRequests := st.apiRequests ++ [page],
              apiAttempts := st.apiAttempts + att }
            if homes = [] then st2
            else
              let r := runPageTasks wanted conc (listingIds homes) st2.saved st2.seen st2.pushed
              let st3 : OrchState := { st2 with
                saved := r.1, seen := r.2.1, pushed := r.2.2,
                methods := addMethod "json-api" st2.methods }
              if wanted ≤ st3.saved then st3
              else apiLoopGo wanted conc maxRetries pages (page + 1) fuel st3

/-- The HTML fallback page loop (`main.js` lines 699-744): sequential pages,
a failed fetch only logs and moves to the next page, an empty listing parse
breaks, and listings are processed strictly sequentially (equivalent to the
limiter model with concurrency 1). -/
def htmlLoopGo (wanted : Nat) (pages : Nat → Except Unit (List OrchListing)) :
    Nat → Nat → OrchState → OrchState
  | _, 0, st => st
  | page, fuel + 1, st =>
      if wanted ≤ st.saved then st
      else
        match pages page with
        | Except.error _ =>
            let st2 : OrchState := { st with
              htmlRequests := st.htmlRequests ++ [page], errors := st.errors + 1 }
            htmlLoopGo wanted pages (page + 1) fuel st2
        | Except.ok listings =>
            let st2 : OrchState := { st with htmlRequests := st.htmlRequests ++ [page] }
            if listings = [] then st2
            else
              let r := runPageTasks wanted 1 (listingIds listings) st2.saved st2.seen st2.pushed
              let st3 : OrchState := { st2 with
                saved := r.1, seen := r.2.1, pushed := r.2.2,
                methods := addMethod "html" st2.methods }
              if wanted ≤ st3.saved then st3
              else htmlLoopGo wanted pages (page + 1) fuel st3

/-- The Playwright fallback (`main.js` lines 746-771): a single rendered
page's listings, processed sequentially with the same dedup treatment. -/
def pwRun (wanted : Nat) (pw : List OrchListing) (st : OrchState) : OrchState :=
  let st2 : OrchState := if pw = [] then st else { st with methods := addMethod "playwright" st.methods }
  let r := runPageTasks wanted 1 (listingIds pw) st2.saved st2.seen st2.pushed
  { st2 with saved := r.1, seen := r.2.1, pushed := r.2.2 }

/-- The initial orchestrator state. -/
def initOrchState : OrchState :=
  { saved := 0, seen := [], pushed := [], apiRequests := [], apiAttempts := 0,
    htmlRequests := [], methods := [], errors := 0 }

/-- The per-target fallback state machine of `main.js` for one region target:
the JSON API loop when `preferJson`, then the HTML loop when the quota is
unmet and `useHtmlFallback`, then Playwright when the quota is unmet and
`usePlaywright`.  `apiPages` / `htmlPages` / `pw` are the deterministic
outcomes of the network for each page (post-parse). -/
def runModel (wanted maxPages conc maxRetries : Nat) (preferJson useHtml usePw : Bool)
    (apiPages : Nat → Except (Option Nat) (List OrchListing))
    (htmlPages : Nat → Except Unit (List OrchListing))
    (pw : List OrchListing) : OrchState :=
  let st1 := if preferJson then apiLoopGo wanted conc maxRetries apiPages 1 maxPages initOrchState
             else initOrchState
  let st2 := if st1.saved < wanted ∧ useHtml = true then htmlLoopGo wanted htmlPages 1 maxPages st1
             else st1
  if st2.saved < wanted ∧ usePw = true then pwRun wanted pw st2 else st2

/-- C8: numeric normalization strips every character other than digits and
the decimal point before conversion; an empty stripped form yields null
(never zero); numeric inputs pass through unchanged; null/undefined yield
null.  Concrete instances: `"N/A"` and `""` normalize to null (not zero),
`"$1,234"` to the number 1234. -/
theorem c8_normalize_number :
    (normalizeNumber JVal.null = JVal.null ∧ normalizeNumber JVal.undef = JVal.null)
    ∧ (∀ n : JNum, normalizeNumber (JVal.num n) = JVal.num n)
    ∧ (∀ s : String, stripNonNumeric s = "" → normalizeNumber (JVal.str s) = JVal.null)
    ∧ (∀ s : String, stripNonNumeric s ≠ "" →
        normalizeNumber (JVal.str s) = JVal.num (jsNumberOfNumeric (stripNonNumeric s)))
    ∧ JVal.null ≠ JVal.num (JNum.rat 0)
    ∧ normalizeNumber (JVal.str "N/A") = JVal.null
    ∧ normalizeNumber (JVal.str "") = JVal.null
    ∧ normalizeNumber (JVal.str "$1,234") = JVal.num (JNum.rat 1234) := by
  refine ⟨⟨rfl, rfl⟩, fun n => rfl, fun s hs => ?_, fun s hs => ?_, by decide, by decide, by decide, by decide⟩
  · simp [normalizeNumber, hs]
  · simp [normalizeNumber, hs]

/-- C8 witness: the normalization theorem applied at concrete inputs
(`"  beds  "` strips to the empty string, `"3 beds"` strips to `"3"`). -/
theorem c8_normalize_number_witness :
    normalizeNumber (JVal.str "  beds  ") = JVal.null
    ∧ normalizeNumber (JVal.str "3 beds") = JVal.num (JNum.rat 3) := by
  constructor
  · exact c8_normalize_number.2.2.1 "  beds  " (by decide)
  · rw [c8_normalize_number.2.2.2.1 "3 beds" (by decide)]
    decide

/-- C10: a string whose stripped form keeps more than one decimal point is
converted by `Number` to NaN, not null; in particular `"1,234 sq. ft."`
(stripping to `"1234.."`) normalizes to NaN, and the emitted sqft field of a
record built from such a value is NaN. -/
theorem c10_nan_normalization :
    (∀ s : String, 1 < (stripNonNumeric s).toList.countP (fun c => c == '.') →
        normalizeNumber (JVal.str s) = JVal.num JNum.nan)
    ∧ normalizeNumber (JVal.str "1,234 sq. ft.") = JVal.num JNum.nan
    ∧ (buildProperty emptyRec { sqft := JVal.str "1,234 sq. ft." } "html" "t0").map PropRecord.sqft
        = some (JVal.num JNum.nan) := by
  refine ⟨fun s h => ?_, by decide, by decide⟩
  have hne : stripNonNumeric s ≠ "" := by
    intro he
    rw [he] at h
    simp at h
  simp only [normalizeNumber, if_neg hne]
  simp only [jsNumberOfNumeric]
  rw [if_pos (Or.inl h)]

/-- C10 witness: the NaN theorem applied at the concrete input `"1.2.3"`. -/
theorem c10_nan_normalization_witness :
    normalizeNumber (JVal.str "1.2.3") = JVal.num JNum.nan :=
  c10_nan_normalization.1 "1.2.3" (by decide)

/-- C5: a 200 response whose body contains `"captcha"` in any letter case is
classified as blocking by `fetchSearchHtml` (it throws
`HTML response indicates blocking`) and is never returned as a valid body. -/
theorem c5_captcha_blocking (body : String) (h : containsCI body "captcha" = true) :
    fetchSearchHtmlStep 200 body = Except.error "HTML response indicates blocking"
    ∧ ∀ b : String, fetchSearchHtmlStep 200 body ≠ Except.ok b := by
  have hb : htmlBlocked body = true := by
    simp [htmlBlocked, detailBlockPatterns, h]
  have hstep : fetchSearchHtmlStep 200 body = Except.error "HTML response indicates blocking" := by
    simp [fetchSearchHtmlStep, blockStatus, hb]
  exact ⟨hstep, fun b hcontra => by rw [hstep] at hcontra; exact Except.noConfusion hcontra⟩

/-- C5 witness: the blocking theorem applied to a concrete 200 body
containing `CAPTCHA` in upper case. -/
theorem c5_captcha_blocking_witness :
    fetchSearchHtmlStep 200 "<html>Please verify you are human: CAPTCHA required</html>"
      = Except.error "HTML response indicates blocking" :=
  (c5_captcha_blocking "<html>Please verify you are human: CAPTCHA required</html>" (by decide)).1

/-- C9: the region target URL `https://example.com/city/29470/IL/Chicago`
with no explicit region id or type yields region identifier `"29470"` and
the numeric region type code 6 mapped to `"city"` (the market slug being
`"chicago"`). -/
theorem c9_region_derivation :
    deriveRegionMeta "https://example.com/city/29470/IL/Chicago" JVal.undef JVal.undef =
      some { url := "https://example.com/city/29470/IL/Chicago",
             regionId := JVal.str "29470",
             regionType := JVal.num (JNum.rat 6),
             market := "chicago" }
    ∧ regionTypeMap "city" = some 6 := by
  constructor
  · decide
  · rfl

/-- C1 counterexample: a detail-sourced value that is present and non-null
but falsy — `detail.beds = 0` against `listing.beds = 3` — is NOT chosen by
the merge: the emitted beds value is 3 (the summary value), not 0 (which the
claimed precedence, `normalizeNumber detail.beds`, would give). -/
theorem c1_counterexample :
    (JVal.num (JNum.rat 0) ≠ JVal.null ∧ JVal.num (JNum.rat 0) ≠ JVal.undef)
    ∧ (buildProperty { beds := JVal.num (JNum.rat 3) } { beds := JVal.num (JNum.rat 0) }
        "json-api" "t0").map PropRecord.beds = some (JVal.num (JNum.rat 3))
    ∧ normalizeNumber (JVal.num (JNum.rat 0)) = JVal.num (JNum.rat 0)
    ∧ JVal.num (JNum.rat 3) ≠ JVal.num (JNum.rat 0) := by
  decide

/-- C1 amended: for every shared field of the merge, the detail-sourced
value is selected exactly when it is truthy under JS truthiness (non-null,
non-undefined, non-zero, non-empty, non-NaN); otherwise the summary value is
selected (for the fields with a final `|| null`, a falsy summary value is
emitted as null).  In particular a null detail value never replaces a
non-null summary value, but a present non-null falsy detail value (0, "",
NaN) is also skipped in favor of the summary value. -/
theorem c1_amended (l d : PRec) (src now : String) (out : PropRecord)
    (h : buildProperty l d src now = some out) :
    ((truthy d.price = true → out.price = formatPrice d.price)
      ∧ (truthy d.price = false → out.price = formatPrice l.price))
    ∧ ((truthy d.beds = true → out.beds = normalizeNumber d.beds)
      ∧ (truthy d.beds = false → out.beds = normalizeNumber l.beds))
    ∧ ((truthy d.baths = true → out.baths = normalizeNumber d.baths)
      ∧ (truthy d.baths = false → out.baths = normalizeNumber l.baths))
    ∧ ((truthy d.sqft = true → out.sqft = normalizeNumber d.sqft)
      ∧ (truthy d.sqft = false → out.sqft = normalizeNumber l.sqft))
    ∧ ((truthy d.address = true → out.streetAddress = d.address)
      ∧ (truthy d.address = false → out.streetAddress = l.address))
    ∧ ((truthy d.city = true → out.city = d.city)
      ∧ (truthy d.city = false → out.city = l.city))
    ∧ ((truthy d.state = true → out.state = d.state)
      ∧ (truthy d.state = false → out.state = l.state))
    ∧ ((truthy d.zip = true → out.zip = d.zip)
      ∧ (truthy d.zip = false → out.zip = l.zip))
    ∧ ((truthy d.status = true → out.status = d.status)
      ∧ (truthy d.status = false → out.status = jsOr l.status JVal.null))
    ∧ ((truthy d.listingDate = true → out.listingDate = d.listingDate)
      ∧ (truthy d.listingDate = false → out.listingDate = jsOr l.listingDate JVal.null))
    ∧ ((truthy d.latitude = true → out.latitude = d.latitude)
      ∧ (truthy d.latitude = false → out.latitude = jsOr l.latitude JVal.null))
    ∧ ((truthy d.longitude = true → out.longitude = d.longitude)
      ∧ (truthy d.longitude = false → out.longitude = jsOr l.longitude JVal.null))
    ∧ ((truthy d.mlsNumber = true → out.mlsNumber = d.mlsNumber)
      ∧ (truthy d.mlsNumber = false → out.mlsNumber = jsOr l.mlsNumber JVal.null))
    ∧ ((truthy d.lotSize = true → out.lotSize = d.lotSize)
      ∧ (truthy d.lotSize = false → out.lotSize = jsOr l.lotSize JVal.null))
    ∧ ((truthy d.yearBuilt = true → out.yearBuilt = d.yearBuilt)
      ∧ (truthy d.yearBuilt = false → out.yearBuilt = jsOr l.yearBuilt JVal.null))
    ∧ ((truthy d.hoa = true → out.hoa = d.hoa)
      ∧ (truthy d.hoa = false → out.hoa = jsOr l.hoa JVal.null)) := by
  cases hu : ensureAbsoluteUrl (jsOr l.url d.url) with
  | none => simp [buildProperty, hu] at h
  | some u0 =>
      simp [buildProperty, hu] at h
      subst h
      repeat' apply And.intro
      all_goals intro ht
      all_goals simp [jsOr, ht]

/-- C1 witness: the amended precedence theorem applied at concrete records —
a falsy detail price (undefined) falls through to the summary price. -/
theorem c1_amended_witness :
    (buildProperty { price := JVal.num (JNum.rat 500000) } { city := JVal.str "Chicago" }
        "json-api" "t0").map PropRecord.price = some (JVal.str "$500,000") := by
  cases e : buildProperty { price := JVal.num (JNum.rat 500000) } { city := JVal.str "Chicago" }
      "json-api" "t0" with
  | none => exact absurd e (by decide)
  | some out =>
      have hp := (c1_amended _ _ _ _ out e).1.2 (by decide)
      simp [hp]
      decide

/-- C2: a merged price that is a number `n` is emitted as `"$"` followed by
the `en-US` locale rendering of `n` (thousands separators; `450000` renders
as `"450,000"`); a merged price that is a string already starting with `"$"`
is emitted unchanged. -/
theorem c2_price_formatting :
    (∀ (l d : PRec) (src now : String) (out : PropRecord) (n : JNum),
        buildProperty l d src now = some out → jsOr d.price l.price = JVal.num n →
        out.price = JVal.str ("$" ++ jsToLocaleString n))
    ∧ jsToLocaleString (JNum.rat 450000) = "450,000"
    ∧ (∀ (l d : PRec) (src now : String) (out : PropRecord) (s : String),
        buildProperty l d src now = some out → jsOr d.price l.price = JVal.str s →
        strStartsWith s "$" = true → out.price = JVal.str s) := by
  refine ⟨fun l d src now out n h hp => ?_, by decide, fun l d src now out s h hp hs => ?_⟩
  · cases hu : ensureAbsoluteUrl (jsOr l.url d.url) with
    | none => simp [buildProperty, hu] at h
    | some u0 =>
        simp [buildProperty, hu] at h
        subst h
        simp [formatPrice, hp]
  · cases hu : ensureAbsoluteUrl (jsOr l.url d.url) with
    | none => simp [buildProperty, hu] at h
    | some u0 =>
        simp [buildProperty, hu] at h
        subst h
        simp [formatPrice, hp, hs]

/-- C2 witness: the price-formatting theorem applied at concrete inputs —
a numeric summary price of 450000 is emitted as `"$450,000"` and a
pre-formatted detail price string `"$1,999,000"` passes through unchanged. -/
theorem c2_price_formatting_witness :
    (buildProperty { price := JVal.num (JNum.rat 450000) } emptyRec "json-api" "t0").map
        PropRecord.price = some (JVal.str "$450,000")
    ∧ (buildProperty emptyRec { price := JVal.str "$1,999,000" } "html" "t0").map
        PropRecord.price = some (JVal.str "$1,999,000") := by
  constructor
  · cases e : buildProperty { price := JVal.num (JNum.rat 450000) } emptyRec "json-api" "t0" with
    | none => exact absurd e (by decide)
    | some out =>
        have hp := c2_price_formatting.1 _ _ _ _ out (JNum.rat 450000) e (by decide)
        simp [hp]
        decide
  · cases e : buildProperty emptyRec { price := JVal.str "$1,999,000" } "html" "t0" with
    | none => exact absurd e (by decide)
    | some out =>
        have hp := c2_price_formatting.2.2 _ _ _ _ out "$1,999,000" e (by decide) (by decide)
        simp [hp]

/-- C6 counterexample: with every identifier field and URL absent (two empty
partial records) `buildProperty` emits `propertyId = null` — the claimed
invariant that `propertyId` is always populated fails. -/
theorem c6_counterexample :
    (buildProperty emptyRec emptyRec "json-api" "t0").map PropRecord.propertyId
      = some JVal.null := by
  decide

/-- C6 amended: the emitted `propertyId` equals the native identifier
(`listing.propertyId || detail.id || listing.mlsNumber`) when that chain is
truthy, and otherwise equals the record's emitted `url`; it is therefore
non-null whenever a native identifier or a URL exists, but is null when both
are absent. -/
theorem c6_amended (l d : PRec) (src now : String) (out : PropRecord)
    (h : buildProperty l d src now = some out) :
    (truthy (natIdOf l d) = true → out.propertyId = natIdOf l d)
    ∧ (truthy (natIdOf l d) = false → out.propertyId = out.url)
    ∧ ((truthy (natIdOf l d) = true ∨ truthy out.url = true) → out.propertyId ≠ JVal.null) := by
  cases hu : ensureAbsoluteUrl (jsOr l.url d.url) with
  | none => simp [buildProperty, hu] at h
  | some u0 =>
      simp [buildProperty, hu] at h
      subst h
      refine ⟨fun ht => by simp [jsOr_pos _ _ ht], fun ht => by simp [jsOr_neg _ _ ht], ?_⟩
      rintro (ht | ht)
      · rw [jsOr_pos _ _ ht]
        exact truthy_ne_null ht
      · by_cases hn : truthy (natIdOf l d) = true
        · rw [jsOr_pos _ _ hn]
          exact truthy_ne_null hn
        · rw [jsOr_neg _ _ (by simpa using hn)]
          exact truthy_ne_null ht

/-- C6 witness: the amended theorem applied at a concrete record with a
native identifier, and at one with only a URL. -/
theorem c6_amended_witness :
    (buildProperty { propertyId := JVal.str "42" } emptyRec "json-api" "t0").map
        PropRecord.propertyId = some (JVal.str "42")
    ∧ (buildProperty { url := JVal.str "/IL/Chicago/home" } emptyRec "html" "t0").map
        PropRecord.propertyId = some (JVal.str "https://www.redfin.com/IL/Chicago/home") := by
  constructor
  · cases e : buildProperty { propertyId := JVal.str "42" } emptyRec "json-api" "t0" with
    | none => exact absurd e (by decide)
    | some out =>
        have hp := (c6_amended _ _ _ _ out e).1 (by decide)
        simp [hp]
        decide
  · cases e : buildProperty { url := JVal.str "/IL/Chicago/home" } emptyRec "html" "t0" with
    | none => exact absurd e (by decide)
    | some out =>
        have h2 := (c6_amended _ _ _ _ out e).2.1 (by decide)
        have hm : (buildProperty { url := JVal.str "/IL/Chicago/home" } emptyRec "html" "t0").map
            PropRecord.url = some (JVal.str "https://www.redfin.com/IL/Chicago/home") := by decide
        rw [e] at hm
        simp at hm
        simp [h2, hm]

/-- Ten distinct listings, as returned by the API on page 1 in the C3
scenario. -/
def c3Listings : List OrchListing :=
  (List.range 10).map (fun i =>
    { propertyId := JVal.str ("P" ++ Nat.repr i),
      url := JVal.str ("https://www.redfin.com/home/" ++ Nat.repr i) })

/-- API oracle for the C3 scenario: 10 listings on page 1, nothing after. -/
def c3Api (p : Nat) : Except (Option Nat) (List OrchListing) :=
  if p = 1 then Except.ok c3Listings else Except.ok []

/-- The C3 scenario run: `resultsWanted = 5`, `maxPages = 3`, and the default
`maxConcurrency = 3` / `maxRetries = 2` / `preferJson` / `useHtmlFallback`. -/
def c3Run : OrchState :=
  runModel 5 3 3 2 true true false c3Api (fun _ => Except.ok []) []

/-- The same scenario with `maxConcurrency = 1`. -/
def c3RunConc1 : OrchState :=
  runModel 5 3 1 2 true true false c3Api (fun _ => Except.ok []) []

/-- C3: evaluating the orchestrator at the scenario's failing input.  With
`resultsWanted = 5`, `maxPages = 3` and the default concurrency 3, the run
pushes 7 records — not exactly 5 — because each limiter task checks the
quota before its detail fetch and increments `saved` only after it, so the
`maxConcurrency - 1` tasks admitted while the final in-quota pushes are in
flight also push.  The run does stop before page 2 and uses only the
json-api method, and with concurrency 1 it saves exactly 5. -/
theorem c3_quota_overshoot :
    c3Run.saved = 7
    ∧ c3Run.saved ≠ 5
    ∧ c3Run.apiRequests = [1]
    ∧ c3Run.methods = ["json-api"]
    ∧ c3Run.htmlRequests = []
    ∧ c3RunConc1.saved = 5 := by
  decide

/-- Number of occurrences of an identifier in a pushed-record list. -/
def countOf (v : JVal) (l : List JVal) : Nat := l.countP (fun x => decide (x = v))

theorem countOf_append (v : JVal) (l1 l2 : List JVal) :
    countOf v (l1 ++ l2) = countOf v l1 + countOf v l2 := by
  simp [countOf, List.countP_append]

theorem countOf_not_mem (v : JVal) (l : List JVal) (h : v ∉ l) : countOf v l = 0 := by
  simp only [countOf]
  rw [List.countP_eq_zero]
  intro a ha
  simp only [decide_eq_true_eq]
  intro he
  exact h (he ▸ ha)

/-- Dedup invariant tying the sink to the `seen` set: every truthy pushed
identifier occurs at most once and is recorded in `seen`. -/
def PushedInv (seen pushed : List JVal) : Prop :=
  ∀ v : JVal, truthy v = true → countOf v pushed ≤ 1 ∧ (v ∈ pushed → v ∈ seen)

theorem pushedInv_init : PushedInv [] [] := by
  intro v hv
  constructor
  · simp [countOf]
  · intro hm; cases hm

/-- One claim-then-push step preserves the dedup invariant: a truthy
identifier is pushed only if it is not yet in `seen`, and it is inserted into
`seen` at the moment it is claimed. -/
theorem pushedInv_step (seen pushed : List JVal) (id : JVal)
    (h : PushedInv seen pushed) (hno : ¬(truthy id = true ∧ id ∈ seen)) :
    PushedInv (if truthy id = true then seen ++ [id] else seen) (pushed ++ [id]) := by
  intro v hv
  constructor
  · rw [countOf_append]
    by_cases hvid : id = v
    · subst hvid
      have hnotseen : id ∉ seen := fun hm => hno ⟨hv, hm⟩
      have hnotpushed : id ∉ pushed := fun hm => hnotseen ((h id hv).2 hm)
      rw [countOf_not_mem id pushed hnotpushed]
      simp [countOf]
    · have : countOf v [id] = 0 := by simp [countOf, hvid]
      rw [this]
      simpa using (h v hv).1
  · intro hm
    rcases List.mem_append.mp hm with hm1 | hm2
    · have hseen := (h v hv).2 hm1
      by_cases ht : truthy id = true <;> simp [ht, hseen]
    · have hvid : v = id := by simpa using hm2
      subst hvid
      simp [hv]

theorem pageGo_inv (wanted conc saved0 : Nat) (ids : List JVal) :
    ∀ (flags : List Bool) (seen pushed : List JVal), PushedInv seen pushed →
      PushedInv (pageGo wanted conc saved0 ids flags seen pushed).2.1
        (pageGo wanted conc saved0 ids flags seen pushed).2.2 := by
  induction ids with
  | nil => intro flags seen pushed h; simpa [pageGo] using h
  | cons id rest ih =>
      intro flags seen pushed h
      by_cases h1 : wanted ≤ saved0 + countTrue (flags.take (flags.length + 1 - conc))
      · simp only [pageGo, if_pos h1]
        exact ih _ _ _ h
      · by_cases h2 : truthy id = true ∧ id ∈ seen
        · simp only [pageGo, if_neg h1, if_pos h2]
          exact ih _ _ _ h
        · simp only [pageGo, if_neg h1, if_neg h2]
          exact ih _ _ _ (pushedInv_step seen pushed id h h2)

theorem runPageTasks_inv (wanted conc : Nat) (ids : List JVal) (saved : Nat)
    (seen pushed : List JVal) (h : PushedInv seen pushed) :
    PushedInv (runPageTasks wanted conc ids saved seen pushed).2.1
      (runPageTasks wanted conc ids saved seen pushed).2.2 := by
  simpa [runPageTasks] using pageGo_inv wanted conc saved ids [] seen pushed h

theorem apiLoopGo_inv (wanted conc maxRetries : Nat)
    (pages : Nat → Except (Option Nat) (List OrchListing)) :
    ∀ (fuel page : Nat) (st : OrchState), PushedInv st.seen st.pushed →
      PushedInv (apiLoopGo wanted conc maxRetries pages page fuel st).seen
        (apiLoopGo wanted conc maxRetries pages page fuel st).pushed := by
  intro fuel
  induction fuel with
  | zero => intro page st h; simpa [apiLoopGo] using h
  | succ k ih =>
      intro page st h
      by_cases hq : wanted ≤ st.saved
      · simpa [apiLoopGo, hq] using h
      · simp only [apiLoopGo, if_neg hq]
        rcases hr : retryRun (fun _ => pages page) maxRetries with ⟨res, att⟩
        cases res with
        | error e =>
            cases e with
            | some n =>
                by_cases hb : n ∈ blockStatus
                · simpa [hb] using h
                · simp only [hb, if_false, ite_false]
                  exact ih _ _ h
            | none => exact ih _ _ h
        | ok homes =>
            by_cases hh : homes = []
            · simpa [hh] using h
            · simp only [hh, if_false, ite_false]
              have hinv := runPageTasks_inv wanted conc (listingIds homes) st.saved st.seen st.pushed h
              by_cases hq3 : wanted ≤ (runPageTasks wanted conc (listingIds homes) st.saved st.seen st.pushed).1
              · simpa [hq3] using hinv
              · simp only [hq3, if_false, ite_false]
                exact ih _ _ hinv

theorem htmlLoopGo_inv (wanted : Nat) (pages : Nat → Except Unit (List OrchListing)) :
    ∀ (fuel page : Nat) (st : OrchState), PushedInv st.seen st.pushed →
      PushedInv (htmlLoopGo wanted pages page fuel st).seen
        (htmlLoopGo wanted pages page fuel st).pushed := by
  intro fuel
  induction fuel with
  | zero => intro page st h; simpa [htmlLoopGo] using h
  | succ k ih =>
      intro page st h
      by_cases hq : wanted ≤ st.saved
      · simpa [htmlLoopGo, hq] using h
      · simp only [htmlLoopGo, if_neg hq]
        cases hr : pages page with
        | error e => exact ih _ _ h
        | ok listings =>
            by_cases hh : listings = []
            · simpa [hh] using h
            · simp only [hh, if_false, ite_false]
              have hinv := runPageTasks_inv wanted 1 (listingIds listings) st.saved st.seen st.pushed h
              by_cases hq3 : wanted ≤ (runPageTasks wanted 1 (listingIds listings) st.saved st.seen st.pushed).1
              · simpa [hq3] using hinv
              · simp only [hq3, if_false, ite_false]
                exact ih _ _ hinv

theorem pwRun_inv (wanted : Nat) (pw : List OrchListing) (st : OrchState)
    (h : PushedInv st.seen st.pushed) :
    PushedInv (pwRun wanted pw st).seen (pwRun wanted pw st).pushed := by
  by_cases hp : pw = [] <;>
    simpa [pwRun, hp] using runPageTasks_inv wanted 1 (listingIds pw) st.saved st.seen st.pushed h

/-- C7: in any run, for any truthy dedup identifier (propertyId, or URL when
the propertyId is falsy), at most one record carrying that identifier is
pushed to the sink — across pages and across the API / HTML / Playwright
methods — because the identifier is inserted into the `seen` set at claim
time, before the detail fetch. -/
theorem c7_dedup (wanted maxPages conc maxRetries : Nat) (preferJson useHtml usePw : Bool)
    (apiPages : Nat → Except (Option Nat) (List OrchListing))
    (htmlPages : Nat → Except Unit (List OrchListing))
    (pw : List OrchListing) (v : JVal) (hv : truthy v = true) :
    countOf v (runModel wanted maxPages conc maxRetries preferJson useHtml usePw
      apiPages htmlPages pw).pushed ≤ 1 := by
  have h0 : PushedInv initOrchState.seen initOrchState.pushed := pushedInv_init
  have h1 := fun (b : Bool) => (by
    by_cases hb : b = true
    · subst hb
      simpa using apiLoopGo_inv wanted conc maxRetries apiPages maxPages 1 initOrchState h0
    · have hb2 : b = false := by simpa using hb
      subst hb2
      simpa using h0 :
    PushedInv (if b then apiLoopGo wanted conc maxRetries apiPages 1 maxPages initOrchState
        else initOrchState).seen
      (if b then apiLoopGo wanted conc maxRetries apiPages 1 maxPages initOrchState
        else initOrchState).pushed)
  set st1 := if preferJson then apiLoopGo wanted conc maxRetries apiPages 1 maxPages initOrchState
    else initOrchState with hst1
  have hinv1 : PushedInv st1.seen st1.pushed := h1 preferJson
  set st2 := if st1.saved < wanted ∧ useHtml = true then htmlLoopGo wanted htmlPages 1 maxPages st1
    else st1 with hst2
  have hinv2 : PushedInv st2.seen st2.pushed := by
    by_cases hc : st1.saved < wanted ∧ useHtml = true
    · simpa [hst2, hc] using htmlLoopGo_inv wanted htmlPages maxPages 1 st1 hinv1
    · simpa [hst2, hc] using hinv1
  have hinv3 : PushedInv (runModel wanted maxPages conc maxRetries preferJson useHtml usePw
      apiPages htmlPages pw).seen
      (runModel wanted maxPages conc maxRetries preferJson useHtml usePw
        apiPages htmlPages pw).pushed := by
    by_cases hc : st2.saved < wanted ∧ usePw = true
    · simpa [runModel, ← hst1, ← hst2, hc] using pwRun_inv wanted pw st2 hinv2
    · simpa [runModel, ← hst1, ← hst2, hc] using hinv2
  exact (hinv3 v hv).1

/-- API oracle for the C7 witness: the same listing identifier appears on
pages 1 and 2. -/
def c7Api (p : Nat) : Except (Option Nat) (List OrchListing) :=
  if p ≤ 2 then Except.ok [{ propertyId := JVal.str "DUP", url := JVal.str "u" }]
  else Except.ok []

/-- C7 witness: the dedup theorem applied to a concrete run in which the
identifier `"DUP"` is listed on two successive API pages. -/
theorem c7_dedup_witness :
    truthy (JVal.str "DUP") = true
    ∧ countOf (JVal.str "DUP")
        (runModel 50 3 3 2 true true false c7Api (fun _ => Except.ok []) []).pushed ≤ 1 :=
  ⟨by decide, c7_dedup 50 3 3 2 true true false c7Api (fun _ => Except.ok []) []
      (JVal.str "DUP") (by decide)⟩

theorem htmlLoopGo_api_const (wanted : Nat) (pages : Nat → Except Unit (List OrchListing)) :
    ∀ (fuel page : Nat) (st : OrchState),
      (htmlLoopGo wanted pages page fuel st).apiRequests = st.apiRequests
      ∧ (htmlLoopGo wanted pages page fuel st).apiAttempts = st.apiAttempts := by
  intro fuel
  induction fuel with
  | zero => intro page st; simp [htmlLoopGo]
  | succ k ih =>
      intro page st
      by_cases hq : wanted ≤ st.saved
      · simp [htmlLoopGo, hq]
      · simp only [htmlLoopGo, if_neg hq]
        cases hr : pages page with
        | error e => simpa using ih (page + 1) _
        | ok listings =>
            by_cases hh : listings = []
            · simp [hh]
            · simp only [hh, if_false, ite_false]
              by_cases hq3 : wanted ≤ (runPageTasks wanted 1 (listingIds listings) st.saved st.seen st.pushed).1
              · simp [hq3]
              · simp only [hq3, if_false, ite_false]
                simpa using ih (page + 1) _

theorem htmlLoopGo_extends (wanted : Nat) (pages : Nat → Except Unit (List OrchListing)) :
    ∀ (fuel page : Nat) (st : OrchState),
      ∃ t : List Nat, (htmlLoopGo wanted pages page fuel st).htmlRequests = st.htmlRequests ++ t := by
  intro fuel
  induction fuel with
  | zero => intro page st; exact ⟨[], by simp [htmlLoopGo]⟩
  | succ k ih =>
      intro page st
      by_cases hq : wanted ≤ st.saved
      · exact ⟨[], by simp [htmlLoopGo, hq]⟩
      · simp only [htmlLoopGo, if_neg hq]
        cases hr : pages page with
        | error e =>
            obtain ⟨t, ht⟩ := ih (page + 1)
              ⟨st.saved, st.seen, st.pushed, st.apiRequests, st.apiAttempts,
                st.htmlRequests ++ [page], st.methods, st.errors + 1⟩
            exact ⟨[page] ++ t, by simpa using ht⟩
        | ok listings =>
            by_cases hh : listings = []
            · exact ⟨[page], by simp [hh]⟩
            · simp only [hh, if_false, ite_false]
              by_cases hq3 : wanted ≤ (runPageTasks wanted 1 (listingIds listings) st.saved st.seen st.pushed).1
              · exact ⟨[page], by simp [hq3]⟩
              · simp only [hq3, if_false, ite_false]
                obtain ⟨t, ht⟩ := ih (page + 1)
                  ⟨(runPageTasks wanted 1 (listingIds listings) st.saved st.seen st.pushed).1,
                    (runPageTasks wanted 1 (listingIds listings) st.saved st.seen st.pushed).2.1,
                    (runPageTasks wanted 1 (listingIds listings) st.saved st.seen st.pushed).2.2,
                    st.apiRequests, st.apiAttempts, st.htmlRequests ++ [page],
                    addMethod "html" st.methods, st.errors⟩
                exact ⟨[page] ++ t, by simpa using ht⟩

theorem htmlLoopGo_first (wanted : Nat) (pages : Nat → Except Unit (List OrchListing))
    (k page : Nat) (st : OrchState) (hq : ¬ wanted ≤ st.saved) :
    ∃ t : List Nat, (htmlLoopGo wanted pages page (k + 1) st).htmlRequests
      = st.htmlRequests ++ [page] ++ t := by
  simp only [htmlLoopGo, if_neg hq]
  cases hr : pages page with
  | error e =>
      obtain ⟨t, ht⟩ := htmlLoopGo_extends wanted pages k (page + 1)
        ⟨st.saved, st.seen, st.pushed, st.apiRequests, st.apiAttempts,
          st.htmlRequests ++ [page], st.methods, st.errors + 1⟩
      exact ⟨t, by simpa using ht⟩
  | ok listings =>
      by_cases hh : listings = []
      · exact ⟨[], by simp [hh]⟩
      · simp only [hh, if_false, ite_false]
        by_cases hq3 : wanted ≤ (runPageTasks wanted 1 (listingIds listings) st.saved st.seen st.pushed).1
        · exact ⟨[], by simp [hq3]⟩
        · simp only [hq3, if_false, ite_false]
          obtain ⟨t, ht⟩ := htmlLoopGo_extends wanted pages k (page + 1)
            ⟨(runPageTasks wanted 1 (listingIds listings) st.saved st.seen st.pushed).1,
              (runPageTasks wanted 1 (listingIds listings) st.saved st.seen st.pushed).2.1,
              (runPageTasks wanted 1 (listingIds listings) st.saved st.seen st.pushed).2.2,
              st.apiRequests, st.apiAttempts, st.htmlRequests ++ [page],
              addMethod "html" st.methods, st.errors⟩
          exact ⟨t, by simpa using ht⟩

/-- The orchestrator state after a single page-1 API call that returned an
empty homes array on its first attempt. -/
def emptyApiSt : OrchState :=
  { saved := 0, seen := [], pushed := [], apiRequests := [1], apiAttempts := 1,
    htmlRequests := [], methods := [], errors := 0 }

theorem runModel_to_html (wanted maxPages conc mr : Nat)
    (api : Nat → Except (Option Nat) (List OrchListing))
    (html : Nat → Except Unit (List OrchListing)) (pw : List OrchListing)
    (st1 : OrchState) (h1 : apiLoopGo wanted conc mr api 1 maxPages initOrchState = st1)
    (hs : st1.saved < wanted) :
    runModel wanted maxPages conc mr true true false api html pw
      = htmlLoopGo wanted html 1 maxPages st1 := by
  simp [runModel, h1, hs]

/-- C4 counterexample: a page-1 response that parses but lacks the homes
array (`{payload: null}`-shaped) is NOT treated as "no more data": it is
classified as an error (`Missing homes payload`), the call is retried —
with the default `maxRetries = 2` the page costs 3 attempts — and the page
loop then continues to page 2 instead of ending immediately. -/
theorem c4_counterexample :
    classifyApiResponse 200 (some { payload := none }) = Except.error none
    ∧ retryRun (fun _ => classifyApiResponse 200 (some { payload := none })) 2
        = (Except.error none, 3)
    ∧ (runModel 50 3 3 2 true true false
        (fun p => if p = 1 then classifyApiResponse 200 (some { payload := none })
          else Except.ok [])
        (fun _ => Except.ok []) []).apiRequests = [1, 2]
    ∧ (runModel 50 3 3 2 true true false
        (fun p => if p = 1 then classifyApiResponse 200 (some { payload := none })
          else Except.ok [])
        (fun _ => Except.ok []) []).apiAttempts = 4 := by
  decide

/-- C4 amended: an API page response with an EMPTY results array is treated
as "no more data" — the call succeeds on the first attempt (no retry), the
API page loop ends immediately (only page 1 is ever requested), and the
orchestrator transitions to the HTML fallback.  A response that parses but
LACKS the results array is instead an error: it is classified as
`Missing homes payload` and retried up to the configured limit
(`maxRetries + 1` attempts in total). -/
theorem c4_amended :
    (∀ (wanted maxPages conc mr : Nat) (htmlPages : Nat → Except Unit (List OrchListing))
        (pw : List OrchListing), 0 < wanted → 0 < maxPages →
        (runModel wanted maxPages conc mr true true false (fun _ => Except.ok []) htmlPages pw).apiRequests = [1]
        ∧ (runModel wanted maxPages conc mr true true false (fun _ => Except.ok []) htmlPages pw).apiAttempts = 1
        ∧ (runModel wanted maxPages conc mr true true false (fun _ => Except.ok []) htmlPages pw).htmlRequests ≠ [])
    ∧ (∀ (parsed : Option ApiParsed) (mr : Nat), lacksHomes parsed = true →
        classifyApiResponse 200 parsed = Except.error none
        ∧ retryRun (fun _ => classifyApiResponse 200 parsed) mr
            = (Except.error (none : Option Nat), mr + 1)) := by
  constructor
  · intro wanted maxPages conc mr htmlPages pw hw hp
    cases maxPages with
    | zero => exact absurd hp (by omega)
    | succ k =>
        have hq : ¬ wanted ≤ initOrchState.saved := by
          simp only [initOrchState]
          omega
        have hst1 : apiLoopGo wanted conc mr (fun _ => Except.ok []) 1 (k + 1) initOrchState
            = emptyApiSt := by
          simp only [apiLoopGo, if_neg hq,
            retryRun_ok (fun _ => Except.ok []) mr ([] : List OrchListing) (fun _ => rfl)]
          simp [initOrchState, emptyApiSt]
        have hs : emptyApiSt.saved < wanted := by
          simp only [emptyApiSt]
          omega
        have hmodel := runModel_to_html wanted (k + 1) conc mr (fun _ => Except.ok [])
          htmlPages pw emptyApiSt hst1 hs
        rw [hmodel]
        refine ⟨(htmlLoopGo_api_const wanted htmlPages (k + 1) 1 emptyApiSt).1,
          (htmlLoopGo_api_const wanted htmlPages (k + 1) 1 emptyApiSt).2, ?_⟩
        obtain ⟨t, ht⟩ := htmlLoopGo_first wanted htmlPages k 1 emptyApiSt (by omega)
        rw [ht]
        simp [emptyApiSt]
  · intro parsed mr hl
    have hcls : classifyApiResponse 200 parsed = Except.error none := by
      rcases parsed with _ | ⟨_ | ⟨_ | homes⟩⟩
      · rfl
      · rfl
      · rfl
      · simp [lacksHomes] at hl
    exact ⟨hcls, retryRun_error _ none mr (fun _ => hcls)⟩

/-- C4 witness: the amended theorem applied at concrete inputs — an empty
page-1 results array with default settings (no retry, only page 1 requested,
HTML fallback reached), and a homes-less parse with `maxRetries = 2`
(3 attempts). -/
theorem c4_amended_witness :
    ((runModel 50 3 3 2 true true false (fun _ => Except.ok [])
        (fun _ => Except.ok []) []).apiRequests = [1]
      ∧ (runModel 50 3 3 2 true true false (fun _ => Except.ok [])
          (fun _ => Except.ok []) []).apiAttempts = 1
      ∧ (runModel 50 3 3 2 true true false (fun _ => Except.ok [])
          (fun _ => Except.ok []) []).htmlRequests ≠ [])
    ∧ (classifyApiResponse 200 (some { payload := some { homes := none } }) = Except.error none
      ∧ retryRun (fun _ => classifyApiResponse 200 (some { payload := some { homes := none } })) 2
          = (Except.error (none : Option Nat), 3)) :=
  ⟨c4_amended.1 50 3 3 2 (fun _ => Except.ok []) [] (by decide) (by decide),
   c4_amended.2 (some { payload := some { homes := none } }) 2 (by decide)⟩
